import Mathlib

/-!
Verification of the `strike` propensity-score matching engine.

Shallow embedding of the Rust sources (`src/distance.rs`, `src/att.rs`,
`src/propensity.rs`, `src/main.rs`). A polars `DataFrame` is modelled as a
`List` of row records; the relevant columns (`strike_id`, `propensities`,
the outcome column and the treatment column) are fields of the record.
`f64` values are modelled as rationals (the claims under study concern
finite values only). Rust panics and polars errors are modelled as `none`.
-/

namespace Strike

/-- One row of the analysis DataFrame, with the columns the matching engine
reads: `strike_id` (i64), `propensities` (f64), the outcome column and the
binary treatment column (i64 after the cast in `construct`). -/
structure Row where
  strike_id : Int
  propensities : Rat
  outcome : Rat
  treatment : Int
deriving DecidableEq, Repr

/-- A row after `subsample_count_matches`: the original columns plus the
`strike_id_count` column produced by the groupby-count and left join. -/
structure CRow where
  base : Row
  strike_id_count : Nat
deriving DecidableEq, Repr

/-- A row after `subsample_conditional_variance`: the counted row plus the
`conditional_variance` column appended by `with_column`. -/
structure VRow where
  crow : CRow
  conditional_variance : Rat
deriving DecidableEq, Repr

/-- Column access for the frame types that flow through `find_nn` /
`nn_match` (the plain frame and the frame carrying `strike_id_count`). -/
class Cols (α : Type) where
  strike_id : α → Int
  propensities : α → Rat
  outcome : α → Rat
  treatment : α → Int

instance : Cols Row :=
  ⟨Row.strike_id, Row.propensities, Row.outcome, Row.treatment⟩

instance : Cols CRow :=
  ⟨fun c => c.base.strike_id, fun c => c.base.propensities,
   fun c => c.base.outcome, fun c => c.base.treatment⟩

/-- polars `ChunkedArray::min` on a Float64 series: `None` on an empty
series, otherwise the minimum value. -/
def seriesMin : List Rat → Option Rat
  | [] => none
  | x :: xs =>
    match seriesMin xs with
    | none => some x
    | some m => some (min x m)

/-- `find_nn` (src/distance.rs:13-35). Filters out rows whose `strike_id`
equals the query's, takes the absolute propensity difference to the query's
`pscore`, and returns the head of the rows attaining the minimum absolute
difference. The two panic branches (`min` returns `None`; the equality mask
is empty) are modelled as `none`. -/
def find_nn {α : Type} [Cols α] (data : List α) (pscore : Rat) (strike_id : Int) :
    Option α :=
  let data := data.filter (fun r => Cols.strike_id r ≠ strike_id)
  let pscore_diff := data.map (fun r => Cols.propensities r - pscore)
  match seriesMin (pscore_diff.map (fun d => |d|)) with
  | some p =>
    match data.filter (fun r => |Cols.propensities r - pscore| = p) with
    | [] => none
    | nb :: _ => some nb
  | none => none

/-- The loop body of `nn_match` (src/distance.rs:57-62): `targets` is the
accumulated result frame, `target` the candidate pool threaded through the
loop (it is a `&mut DataFrame` in the source, but `find_nn` only ever reads
it). -/
def nn_match_loop {α : Type} [Cols α] (main : List α) (target : List α)
    (targets : List α) : Option (List α × List α) :=
  match main with
  | [] => some (targets, target)
  | q :: rest =>
    match find_nn target (Cols.propensities q) (Cols.strike_id q) with
    | none => none
    | some nb => nn_match_loop rest target (targets ++ [nb])

/-- `nn_match` (src/distance.rs:45-64). Returns the matched frame (one row
per row of `main`, in order) together with the final state of the mutable
candidate pool `target`. -/
def nn_match {α : Type} [Cols α] (main : List α) (target : List α) :
    Option (List α × List α) :=
  nn_match_loop main target []

/-- `calculate_att` (src/att.rs:14-30). The element-wise difference of the
treated and matched outcome columns requires the two frames to have equal
height (a polars shape mismatch is an error, modelled `none`); the mean of
an empty difference series is null, hitting the panic branch (`none`). -/
def calculate_att (treat : List Row) (control : List Row) : Option Rat :=
  if treat.length = control.length then
    let y_diff := List.zipWith (fun t c => t.outcome - c.outcome) treat control
    match y_diff with
    | [] => none
    | _ => some (y_diff.sum / (y_diff.length : Rat))
  else none

/-- Keep-first deduplication over full rows: polars
`unique(None, UniqueKeepStrategy::First, None)`, keeping the first
occurrence of every distinct row. -/
def uniqueFirstAux {α : Type} [DecidableEq α] (seen : List α) : List α → List α
  | [] => []
  | x :: xs =>
    if x ∈ seen then uniqueFirstAux seen xs
    else x :: uniqueFirstAux (x :: seen) xs

/-- polars `DataFrame::unique` over all columns with `KeepStrategy::First`. -/
def uniqueFirst {α : Type} [DecidableEq α] (l : List α) : List α :=
  uniqueFirstAux [] l

/-- `subsample_count_matches` (src/att.rs:89-98). The groupby-count produces,
for each distinct `strike_id`, the number of rows bearing it (column
`strike_id_count`); the left join attaches that count to every row, and
`unique(.., First, ..)` drops duplicate rows keeping the first. -/
def subsample_count_matches (data : List Row) : List CRow :=
  uniqueFirst
    (data.map (fun r =>
      { base := r, strike_id_count := data.countP (fun s => s.strike_id = r.strike_id) }))

/-- The conditional-variance formula of `subsample_conditional_variance`
(src/att.rs:78-80): `mean_y = (y + y_match)/2`,
`cond_var = (y - mean_y)^2 + (y_match - mean_y)^2`. -/
def condVar (observed_y matched_y : Rat) : Rat :=
  let mean_y := (observed_y + matched_y) / 2
  (observed_y - mean_y) * (observed_y - mean_y)
    + (matched_y - mean_y) * (matched_y - mean_y)

/-- `subsample_conditional_variance` (src/att.rs:70-84). Counts matches,
self-matches the counted frame against a clone of itself, and appends the
`conditional_variance` column computed row-wise from the observed and
matched outcome columns. -/
def subsample_conditional_variance (data : List Row) : Option (List VRow) :=
  let data := subsample_count_matches data
  match nn_match data data with
  | none => none
  | some (self_matches, _) =>
    some (List.zipWith
      (fun r m => { crow := r, conditional_variance := condVar (Cols.outcome r) (Cols.outcome m) })
      data self_matches)

/-- `calculate_variance` (src/att.rs:39-66). Splices the two
conditional-variance frames, computes the row-wise weight
`T - ((T - 1) * -1) * K`, squares it, multiplies by the conditional
variance, sums, and divides by `treat.height()` squared. -/
def calculate_variance (treat : List Row) (control : List Row) : Option Rat :=
  match subsample_conditional_variance treat,
        subsample_conditional_variance control with
  | some treat_with_variance, some control_with_variance =>
    let treat_control := treat_with_variance ++ control_with_variance
    let n_treat_sq : Rat := ((treat.length * treat.length : Nat) : Rat)
    let treat_by_var : Rat :=
      (treat_control.map (fun u =>
        let t : Rat := (Cols.treatment u.crow : Rat)
        let k : Rat := (u.crow.strike_id_count : Rat)
        let weighted_treat := t - ((t - 1) * (-1)) * k
        (weighted_treat * weighted_treat) * u.conditional_variance)).sum
    some (treat_by_var / n_treat_sq)
  | _, _ => none

/-- A row of the input CSV before propensity estimation: the columns the
engine later reads, minus `propensities` and `strike_id` which
`estimate_propensities` appends. -/
structure PreRow where
  outcome : Rat
  treatment : Int
deriving DecidableEq, Repr

/-- `estimate_propensities` (src/propensity.rs:61-75), with the external
logistic fit `estimate_logit` (a linfa black box operating on the covariate
matrix) abstracted as the list `props` of fitted probabilities it returns,
one per input row in input order. Appends the `propensities` column and the
`strike_id` column `(1..=height).collect()`; `with_column` with a series of
the wrong length is a polars shape error (`none`). -/
def estimate_propensities (data : List PreRow) (props : List Rat) :
    Option (List Row) :=
  if props.length = data.length then
    let idx : List Int := (List.range data.length).map (fun i : Nat => (i : Int) + 1)
    some (List.zipWith
      (fun rp id =>
        { strike_id := id, propensities := rp.2,
          outcome := rp.1.outcome, treatment := rp.1.treatment })
      (List.zipWith (fun r p => (r, p)) data props) idx)
  else none

/-- `treat_control_split` (src/main.rs:182-188): filter the rows whose
treatment column equals 1, and those where it equals 0. -/
def treat_control_split (data : List Row) : List Row × List Row :=
  (data.filter (fun r => r.treatment = 1),
   data.filter (fun r => r.treatment = 0))

/-! ## Helper lemmas -/

theorem seriesMin_mem {l : List Rat} {p : Rat} (h : seriesMin l = some p) : p ∈ l := by
  induction l with
  | nil => simp [seriesMin] at h
  | cons x xs ih =>
    rw [seriesMin] at h
    cases hxs : seriesMin xs with
    | none => rw [hxs] at h; simp at h; simp [h]
    | some m =>
      rw [hxs] at h
      simp at h
      rcases min_cases x m with ⟨he, _⟩ | ⟨he, _⟩
      · have hpx : p = x := by rw [← h, he]
        simp [hpx]
      · have hpm : p = m := by rw [← h, he]
        subst hpm
        exact List.mem_cons_of_mem _ (ih hxs)

theorem seriesMin_isSome {l : List Rat} (h : l ≠ []) : ∃ p, seriesMin l = some p := by
  cases l with
  | nil => exact absurd rfl h
  | cons x xs =>
    rw [seriesMin]
    cases seriesMin xs with
    | none => exact ⟨x, rfl⟩
    | some m => exact ⟨min x m, rfl⟩

theorem head?_filter {α : Type} (q : α → Bool) (l : List α) :
    (l.filter q).head? = l.find? q := by
  induction l with
  | nil => rfl
  | cons x xs ih =>
    by_cases hx : q x
    · simp [List.filter_cons, List.find?_cons, hx]
    · simp only [Bool.not_eq_true] at hx
      simp [List.filter_cons, List.find?_cons, hx, ih]

theorem exists_of_mem_zipWith {α β γ : Type} {f : α → β → γ} {l₁ : List α}
    {l₂ : List β} {x : γ} (h : x ∈ List.zipWith f l₁ l₂) :
    ∃ a ∈ l₁, ∃ b ∈ l₂, x = f a b := by
  induction l₁ generalizing l₂ with
  | nil => simp at h
  | cons a as ih =>
    cases l₂ with
    | nil => simp at h
    | cons b bs =>
      rw [List.zipWith_cons_cons, List.mem_cons] at h
      rcases h with h | h
      · exact ⟨a, by simp, b, by simp, h⟩
      · rcases ih h with ⟨a', ha', b', hb', hx⟩
        exact ⟨a', by simp [ha'], b', by simp [hb'], hx⟩

/-- If `find_nn` returns a row, that row comes from the candidate pool and
does not carry the query's `strike_id`. -/
theorem find_nn_mem {α : Type} [Cols α] {data : List α} {ps : Rat} {qid : Int}
    {r : α} (h : find_nn data ps qid = some r) :
    r ∈ data ∧ Cols.strike_id r ≠ qid := by
  simp only [find_nn] at h
  split at h
  · rename_i p hmin
    split at h
    · exact absurd h (by simp)
    · rename_i nb rest hf
      simp only [Option.some.injEq] at h
      subst h
      have hmem : nb ∈ (data.filter (fun c => decide (Cols.strike_id c ≠ qid))).filter
          (fun c => decide (|Cols.propensities c - ps| = p)) := by rw [hf]; simp
      have hmem2 := List.mem_of_mem_filter hmem
      refine ⟨List.mem_of_mem_filter hmem2, ?_⟩
      have := List.of_mem_filter hmem2
      simpa using this
  · exact absurd h (by simp)

/-- If some candidate escapes the self-exclusion filter, `find_nn` succeeds. -/
theorem find_nn_isSome {α : Type} [Cols α] {data : List α} (ps : Rat) {qid : Int}
    (h : ∃ c ∈ data, Cols.strike_id c ≠ qid) :
    ∃ r, find_nn data ps qid = some r := by
  rcases h with ⟨c, hc, hcid⟩
  have hcf : c ∈ data.filter (fun r => Cols.strike_id r ≠ qid) :=
    List.mem_filter.2 ⟨hc, by simpa using hcid⟩
  have hne : ((data.filter (fun r => Cols.strike_id r ≠ qid)).map
      (fun r => Cols.propensities r - ps)).map (fun d => |d|) ≠ [] := by
    simp only [ne_eq, List.map_eq_nil_iff]
    intro hnil
    rw [hnil] at hcf
    simp at hcf
  rcases seriesMin_isSome hne with ⟨p, hp⟩
  have hpmem := seriesMin_mem hp
  simp only [List.map_map, List.mem_map, Function.comp] at hpmem
  rcases hpmem with ⟨a, ha, hap⟩
  have haf : a ∈ (data.filter (fun r => Cols.strike_id r ≠ qid)).filter
      (fun r => |Cols.propensities r - ps| = p) :=
    List.mem_filter.2 ⟨ha, by simpa using hap⟩
  cases hf : (data.filter (fun r => decide (Cols.strike_id r ≠ qid))).filter
      (fun r => decide (|Cols.propensities r - ps| = p)) with
  | nil => rw [hf] at haf; simp at haf
  | cons nb rest =>
    exact ⟨nb, by simp only [find_nn, hp, hf]⟩

/-- Unfolding of the `nn_match` loop: the candidate pool comes back
untouched, and the result extends the accumulator by exactly the per-query
`find_nn` results, in query order. -/
theorem nn_match_loop_spec {α : Type} [Cols α] {main target acc res tfin : List α}
    (h : nn_match_loop main target acc = some (res, tfin)) :
    tfin = target ∧ ∃ ms, res = acc ++ ms ∧ ms.length = main.length ∧
      ∀ i (hi : i < main.length) (hm : i < ms.length),
        find_nn target (Cols.propensities (main.get ⟨i, hi⟩))
          (Cols.strike_id (main.get ⟨i, hi⟩)) = some (ms.get ⟨i, hm⟩) := by
  induction main generalizing acc with
  | nil =>
    rw [nn_match_loop] at h
    simp at h
    exact ⟨h.2.symm, [], by simp [h.1.symm], rfl, fun i hi => by simp at hi⟩
  | cons q rest ih =>
    rw [nn_match_loop] at h
    cases hq : find_nn target (Cols.propensities q) (Cols.strike_id q) with
    | none => rw [hq] at h; simp at h
    | some nb =>
      rw [hq] at h
      rcases ih h with ⟨htf, ms', hres, hlen, hget⟩
      refine ⟨htf, nb :: ms', by simpa using hres, by simpa using hlen, ?_⟩
      intro i hi hm
      cases i with
      | zero => simpa using hq
      | succ j =>
        have hj : j < rest.length := by simpa using hi
        have hjm : j < ms'.length := by simpa using hm
        simpa using hget j hj hjm

/-- If `find_nn` succeeds for every query, the `nn_match` loop succeeds. -/
theorem nn_match_loop_total {α : Type} [Cols α] {main target : List α}
    (acc : List α)
    (h : ∀ q ∈ main, ∃ r, find_nn target (Cols.propensities q) (Cols.strike_id q) = some r) :
    ∃ res tfin, nn_match_loop main target acc = some (res, tfin) := by
  induction main generalizing acc with
  | nil => exact ⟨acc, target, rfl⟩
  | cons q rest ih =>
    rcases h q (by simp) with ⟨r, hr⟩
    rw [nn_match_loop, hr]
    exact ih (acc ++ [r]) (fun q' hq' => h q' (by simp [hq']))

/-! ## Claims -/

attribute [local semireducible] Rat.mul Rat.inv Rat.add Rat.sub Rat.ofScientific

/-- C2: whenever the id-filtered candidate pool attains a minimum absolute
propensity difference `p` (in particular when several candidates tie exactly
at `p`), `find_nn` returns the first candidate in the pool's original row
ordering whose id differs from the query's and whose absolute difference
equals `p`; being a pure function of its input, the choice is the same on
every run. -/
theorem find_nn_tie_break_first {α : Type} [Cols α] (data : List α) (ps : Rat)
    (qid : Int) (p : Rat)
    (h : seriesMin (((data.filter (fun c => Cols.strike_id c ≠ qid)).map
        (fun c => Cols.propensities c - ps)).map (fun d => |d|)) = some p) :
    find_nn data ps qid =
      data.find? (fun c => decide (Cols.strike_id c ≠ qid)
        && decide (|Cols.propensities c - ps| = p)) := by
  have hstep : find_nn data ps qid =
      ((data.filter (fun c => decide (Cols.strike_id c ≠ qid))).filter
        (fun c => decide (|Cols.propensities c - ps| = p))).head? := by
    simp only [find_nn, h]
    cases hf : (data.filter (fun c => decide (Cols.strike_id c ≠ qid))).filter
        (fun c => decide (|Cols.propensities c - ps| = p)) with
    | nil => simp
    | cons nb rest => simp
  rw [hstep, head?_filter, List.find?_filter]
  congr 1
  funext c
  by_cases h1 : Cols.strike_id c = qid <;>
    by_cases h2 : |Cols.propensities c - ps| = p <;> simp [h1, h2]

/-- C2 witness: two candidates (ids 2 and 3, both with propensity 1/2) tie
exactly at minimum distance 0 from the query; `find_nn` picks the first of
them in the pool's original ordering. -/
theorem find_nn_tie_break_first_witness :
    find_nn [({ strike_id := 2, propensities := 1/2, outcome := 4, treatment := 0 } : Row),
             { strike_id := 3, propensities := 1/2, outcome := 6, treatment := 0 }] (1/2) 1 =
      ([({ strike_id := 2, propensities := 1/2, outcome := 4, treatment := 0 } : Row),
        { strike_id := 3, propensities := 1/2, outcome := 6, treatment := 0 }].find?
        (fun c => decide (Cols.strike_id c ≠ 1)
          && decide (|Cols.propensities c - 1/2| = 0))) :=
  find_nn_tie_break_first
    [({ strike_id := 2, propensities := 1/2, outcome := 4, treatment := 0 } : Row),
     { strike_id := 3, propensities := 1/2, outcome := 6, treatment := 0 }] (1/2) 1 0
    (by decide)

/-- C10: when the minimum over the id-filtered candidate pool's absolute
propensity differences is `Some p`, some candidate attains exactly `p`, so
the equality mask is non-empty and the guarded panic branch is unreachable:
`find_nn` returns a row. (All propensities are rationals here, which is the
finite-`f64` precondition.) -/
theorem find_nn_min_attained {α : Type} [Cols α] (data : List α) (ps : Rat)
    (qid : Int) (p : Rat)
    (h : seriesMin (((data.filter (fun c => Cols.strike_id c ≠ qid)).map
        (fun c => Cols.propensities c - ps)).map (fun d => |d|)) = some p) :
    (data.filter (fun c => Cols.strike_id c ≠ qid)).filter
        (fun c => |Cols.propensities c - ps| = p) ≠ [] ∧
      ∃ r, find_nn data ps qid = some r := by
  have hpmem := seriesMin_mem h
  simp only [List.map_map, List.mem_map, Function.comp] at hpmem
  rcases hpmem with ⟨a, ha, hap⟩
  have haf : a ∈ (data.filter (fun r => Cols.strike_id r ≠ qid)).filter
      (fun r => |Cols.propensities r - ps| = p) :=
    List.mem_filter.2 ⟨ha, by simpa using hap⟩
  constructor
  · intro hnil
    rw [hnil] at haf
    simp at haf
  · cases hf : (data.filter (fun r => decide (Cols.strike_id r ≠ qid))).filter
        (fun r => decide (|Cols.propensities r - ps| = p)) with
    | nil => rw [hf] at haf; simp at haf
    | cons nb rest => exact ⟨nb, by simp only [find_nn, h, hf]⟩

/-- C10 witness: on the §8 scenario pool, the minimum absolute difference
1/50 is attained, the mask is non-empty and `find_nn` returns a row. -/
theorem find_nn_min_attained_witness :
    ([({ strike_id := 2, propensities := 2/5, outcome := 4, treatment := 0 } : Row),
      { strike_id := 3, propensities := 13/25, outcome := 6, treatment := 0 }].filter
        (fun c => Cols.strike_id c ≠ 1)).filter
        (fun c => |Cols.propensities c - 1/2| = 1/50) ≠ [] ∧
      ∃ r, find_nn
        [({ strike_id := 2, propensities := 2/5, outcome := 4, treatment := 0 } : Row),
         { strike_id := 3, propensities := 13/25, outcome := 6, treatment := 0 }] (1/2) 1 = some r :=
  find_nn_min_attained
    [({ strike_id := 2, propensities := 2/5, outcome := 4, treatment := 0 } : Row),
     { strike_id := 3, propensities := 13/25, outcome := 6, treatment := 0 }] (1/2) 1 (1/50)
    (by decide)

/-- C7: a cohort of exactly one unit fed to the self-matching step of
variance estimation makes the whole computation fail (`none`, the model of
the `find_nn` panic), and more generally `find_nn` fails hard whenever the
candidate pool is empty after excluding the query's own id — it never
silently returns a default row. -/
theorem degenerate_self_match_fails :
    (∀ r : Row, subsample_conditional_variance [r] = none) ∧
      ∀ {α : Type} (inst : Cols α) (data : List α) (ps : Rat) (qid : Int),
        data.filter (fun c => Cols.strike_id c ≠ qid) = [] →
        find_nn data ps qid = none := by
  have hfind : ∀ {α : Type} (inst : Cols α) (data : List α) (ps : Rat) (qid : Int),
      data.filter (fun c => Cols.strike_id c ≠ qid) = [] →
      find_nn data ps qid = none := by
    intro α inst data ps qid hemp
    simp only [find_nn, hemp, List.map_nil, seriesMin]
  refine ⟨?_, hfind⟩
  intro r
  have hscm : subsample_count_matches [r] =
      [{ base := r, strike_id_count := 1 }] := by
    simp [subsample_count_matches, uniqueFirst, uniqueFirstAux]
  have hfn : find_nn [({ base := r, strike_id_count := 1 } : CRow)]
      (Cols.propensities ({ base := r, strike_id_count := 1 } : CRow))
      (Cols.strike_id ({ base := r, strike_id_count := 1 } : CRow)) = none := by
    apply hfind
    simp [List.filter, Cols.strike_id]
  have hc : List.countP (fun s => decide (s.strike_id = r.strike_id)) [r] = 1 := by
    simp
  simp only [subsample_conditional_variance, hscm, nn_match, nn_match_loop, hc, hfn]

/-- C7 witness: a concrete singleton cohort fails the self-matching step,
and a concrete pool that is empty after excluding the query's id makes
`find_nn` fail. -/
theorem degenerate_self_match_fails_witness :
    subsample_conditional_variance
        [({ strike_id := 7, propensities := 1/2, outcome := 3, treatment := 1 } : Row)] = none ∧
      find_nn [({ strike_id := 5, propensities := 1/2, outcome := 1, treatment := 0 } : Row)]
        (1/2) 5 = none :=
  ⟨degenerate_self_match_fails.1 _,
   degenerate_self_match_fails.2 _
     [({ strike_id := 5, propensities := 1/2, outcome := 1, treatment := 0 } : Row)]
     (1/2) 5 (by decide)⟩

/-- C8: `nn_match` never mutates the candidate pool (the final state of the
threaded `&mut` pool equals its initial state), and matching is with
replacement: on the concrete input of two treated units and one control
unit, both queries succeed and return the same control row, the pool
surviving unchanged. -/
theorem nn_match_pool_unchanged :
    (∀ (main target res tfin : List Row),
        nn_match main target = some (res, tfin) → tfin = target) ∧
      nn_match [({ strike_id := 1, propensities := 1/2, outcome := 10, treatment := 1 } : Row),
                { strike_id := 2, propensities := 3/5, outcome := 8, treatment := 1 }]
              [({ strike_id := 3, propensities := 2/5, outcome := 4, treatment := 0 } : Row)] =
        some ([{ strike_id := 3, propensities := 2/5, outcome := 4, treatment := 0 },
               { strike_id := 3, propensities := 2/5, outcome := 4, treatment := 0 }],
              [{ strike_id := 3, propensities := 2/5, outcome := 4, treatment := 0 }]) := by
  constructor
  · intro main target res tfin h
    exact (nn_match_loop_spec h).1
  · decide

/-- C8 witness: the pool-preservation statement applied at the concrete
two-treated/one-control input. -/
theorem nn_match_pool_unchanged_witness :
    ([({ strike_id := 3, propensities := 2/5, outcome := 4, treatment := 0 } : Row)] =
      [({ strike_id := 3, propensities := 2/5, outcome := 4, treatment := 0 } : Row)]) :=
  nn_match_pool_unchanged.1
    [{ strike_id := 1, propensities := 1/2, outcome := 10, treatment := 1 },
     { strike_id := 2, propensities := 3/5, outcome := 8, treatment := 1 }]
    [{ strike_id := 3, propensities := 2/5, outcome := 4, treatment := 0 }]
    [{ strike_id := 3, propensities := 2/5, outcome := 4, treatment := 0 },
     { strike_id := 3, propensities := 2/5, outcome := 4, treatment := 0 }]
    [{ strike_id := 3, propensities := 2/5, outcome := 4, treatment := 0 }]
    (by decide)

/-- C1 counterexample: with the non-empty query frame `[u]` and non-empty
candidate frame `[u]` (every unit has a finite propensity and a
`strike_id`), `nn_match` does not return a one-row frame — the pool is
empty after self-exclusion and the call fails (`none`, the model of the
`find_nn` panic). -/
theorem nn_match_self_pool_counterexample :
    nn_match [({ strike_id := 1, propensities := 1/2, outcome := 10, treatment := 1 } : Row)]
        [({ strike_id := 1, propensities := 1/2, outcome := 10, treatment := 1 } : Row)]
      = none := by decide

/-- C1 (amended): for non-empty query and candidate frames such that every
query row has at least one candidate row with a different `strike_id`,
`nn_match` succeeds and returns a frame with exactly as many rows as the
query frame, where the i-th row is a row of the candidate frame whose
`strike_id` differs from the i-th query row's `strike_id`. -/
theorem nn_match_shape_correct (main target : List Row)
    (hm : main ≠ []) (ht : target ≠ [])
    (hdiff : ∀ q ∈ main, ∃ c ∈ target, c.strike_id ≠ q.strike_id) :
    ∃ res tfin, nn_match main target = some (res, tfin) ∧
      res.length = main.length ∧
      ∀ i (hr : i < res.length) (hq : i < main.length),
        res.get ⟨i, hr⟩ ∈ target ∧
          (res.get ⟨i, hr⟩).strike_id ≠ (main.get ⟨i, hq⟩).strike_id := by
  have htot : ∀ q ∈ main,
      ∃ r, find_nn target (Cols.propensities q) (Cols.strike_id q) = some r := by
    intro q hq
    exact find_nn_isSome _ (hdiff q hq)
  rcases nn_match_loop_total [] htot with ⟨res, tfin, hloop⟩
  rcases nn_match_loop_spec hloop with ⟨htf, ms, hres, hlen, hget⟩
  simp only [List.nil_append] at hres
  subst hres
  refine ⟨res, tfin, hloop, hlen, ?_⟩
  intro i hr hq
  have hfd := hget i hq hr
  have hmem := find_nn_mem hfd
  exact ⟨hmem.1, hmem.2⟩

/-- C1 witness: the amended statement applied at the scenario frame of §8 of
the spec (one treated unit, two control units). -/
theorem nn_match_shape_correct_witness :
    ∃ res tfin,
      nn_match [({ strike_id := 1, propensities := 1/2, outcome := 10, treatment := 1 } : Row)]
          [({ strike_id := 2, propensities := 2/5, outcome := 4, treatment := 0 } : Row),
           { strike_id := 3, propensities := 13/25, outcome := 6, treatment := 0 }] =
        some (res, tfin) ∧
      res.length = ([({ strike_id := 1, propensities := 1/2, outcome := 10, treatment := 1 } : Row)]).length ∧
      ∀ i (hr : i < res.length)
        (hq : i < ([({ strike_id := 1, propensities := 1/2, outcome := 10, treatment := 1 } : Row)]).length),
        res.get ⟨i, hr⟩ ∈
            [({ strike_id := 2, propensities := 2/5, outcome := 4, treatment := 0 } : Row),
             { strike_id := 3, propensities := 13/25, outcome := 6, treatment := 0 }] ∧
          (res.get ⟨i, hr⟩).strike_id ≠
            (([({ strike_id := 1, propensities := 1/2, outcome := 10, treatment := 1 } : Row)]).get
              ⟨i, hq⟩).strike_id :=
  nn_match_shape_correct _ _ (by decide) (by decide) (by decide)

/-- C3: on equal-length non-empty frames `calculate_att` returns the mean
over i of (treated outcome i minus matched-control outcome i); it returns 0
when every treated outcome equals its matched control's outcome; and on the
concrete input treated = [{id 1, score 0.5, y 10}],
control = [{id 2, score 0.4, y 4}, {id 3, score 0.52, y 6}] the match is
id 3 and the ATT is 4. -/
theorem calculate_att_mean_spec :
    (∀ (treat control : List Row), treat.length = control.length → treat ≠ [] →
        calculate_att treat control =
          some ((List.zipWith (fun t c => t.outcome - c.outcome) treat control).sum /
            (treat.length : Rat))) ∧
    (∀ (treat control : List Row),
        List.Forall₂ (fun t c => t.outcome = c.outcome) treat control → treat ≠ [] →
        calculate_att treat control = some 0) ∧
    (nn_match [({ strike_id := 1, propensities := 1/2, outcome := 10, treatment := 1 } : Row)]
        [({ strike_id := 2, propensities := 2/5, outcome := 4, treatment := 0 } : Row),
         { strike_id := 3, propensities := 13/25, outcome := 6, treatment := 0 }] =
      some ([{ strike_id := 3, propensities := 13/25, outcome := 6, treatment := 0 }],
            [{ strike_id := 2, propensities := 2/5, outcome := 4, treatment := 0 },
             { strike_id := 3, propensities := 13/25, outcome := 6, treatment := 0 }]) ∧
     calculate_att [({ strike_id := 1, propensities := 1/2, outcome := 10, treatment := 1 } : Row)]
        [({ strike_id := 3, propensities := 13/25, outcome := 6, treatment := 0 } : Row)] =
      some 4) := by
  have h1 : ∀ (treat control : List Row), treat.length = control.length → treat ≠ [] →
      calculate_att treat control =
        some ((List.zipWith (fun t c => t.outcome - c.outcome) treat control).sum /
          (treat.length : Rat)) := by
    intro treat control hlen hne
    have hlen2 : (List.zipWith (fun t c => t.outcome - c.outcome) treat control).length
        = treat.length := by
      rw [List.length_zipWith, hlen, Nat.min_self]
    simp only [calculate_att, if_pos hlen]
    split
    · rename_i hz
      rw [List.zipWith_eq_nil_iff] at hz
      rcases hz with h | h
      · exact absurd h hne
      · refine absurd (List.length_eq_zero.1 ?_) hne
        rw [hlen, h, List.length_nil]
    · rw [hlen2]
  have hsum : ∀ (t c : List Row),
      List.Forall₂ (fun a b => a.outcome = b.outcome) t c →
      (List.zipWith (fun a b => a.outcome - b.outcome) t c).sum = 0 := by
    intro t c hf
    induction hf with
    | nil => simp
    | cons hab _ ih => simp [hab, ih]
  refine ⟨h1, ?_, by decide, by decide⟩
  intro treat control hf hne
  rw [h1 treat control hf.length_eq hne, hsum treat control hf, zero_div]

/-- C3 witness: the mean formula applied at the one-pair frame of the §8
scenario. -/
theorem calculate_att_mean_spec_witness :
    calculate_att [({ strike_id := 1, propensities := 1/2, outcome := 10, treatment := 1 } : Row)]
        [({ strike_id := 3, propensities := 13/25, outcome := 6, treatment := 0 } : Row)] =
      some ((List.zipWith (fun t c => t.outcome - c.outcome)
          [({ strike_id := 1, propensities := 1/2, outcome := 10, treatment := 1 } : Row)]
          [({ strike_id := 3, propensities := 13/25, outcome := 6, treatment := 0 } : Row)]).sum /
        (([({ strike_id := 1, propensities := 1/2, outcome := 10, treatment := 1 } : Row)]).length : Rat)) :=
  calculate_att_mean_spec.1 _ _ (by decide) (by decide)

theorem condVar_nonneg (a b : Rat) : 0 ≤ condVar a b := by
  unfold condVar
  exact add_nonneg (mul_self_nonneg _) (mul_self_nonneg _)

/-- Every conditional variance attached by `subsample_conditional_variance`
is a two-point sum of squares, hence non-negative. -/
theorem scv_cond_var_nonneg {data : List Row} {out : List VRow}
    (h : subsample_conditional_variance data = some out) :
    ∀ u ∈ out, 0 ≤ u.conditional_variance := by
  simp only [subsample_conditional_variance] at h
  split at h
  · exact absurd h (by simp)
  · simp only [Option.some.injEq] at h
    subst h
    intro u hu
    rcases exists_of_mem_zipWith hu with ⟨a, _, b, _, rfl⟩
    exact condVar_nonneg _ _

/-- C5: whenever `calculate_variance` succeeds its value is non-negative,
and it is exactly 0 whenever every unit's self-match conditional variance
is 0. -/
theorem calculate_variance_nonneg_spec :
    (∀ (treat control : List Row) (v : Rat),
        calculate_variance treat control = some v → 0 ≤ v) ∧
      ∀ (treat control : List Row) (tv cv : List VRow),
        subsample_conditional_variance treat = some tv →
        subsample_conditional_variance control = some cv →
        (∀ u ∈ tv ++ cv, u.conditional_variance = 0) →
        calculate_variance treat control = some 0 := by
  constructor
  · intro treat control v h
    simp only [calculate_variance] at h
    split at h
    · rename_i tv cv htv hcv
      simp only [Option.some.injEq] at h
      subst h
      apply div_nonneg
      · apply List.sum_nonneg
        intro x hx
        rcases List.mem_map.1 hx with ⟨u, hu, rfl⟩
        apply mul_nonneg (mul_self_nonneg _)
        rcases List.mem_append.1 hu with hu | hu
        · exact scv_cond_var_nonneg htv u hu
        · exact scv_cond_var_nonneg hcv u hu
      · positivity
    · exact absurd h (by simp)
  · intro treat control tv cv htv hcv hz
    simp only [calculate_variance, htv, hcv]
    have hs : ((tv ++ cv).map (fun u =>
        let t : Rat := (Cols.treatment u.crow : Rat)
        let k : Rat := (u.crow.strike_id_count : Rat)
        let weighted_treat := t - ((t - 1) * (-1)) * k
        (weighted_treat * weighted_treat) * u.conditional_variance)).sum = 0 := by
      apply List.sum_eq_zero
      intro x hx
      rcases List.mem_map.1 hx with ⟨u, hu, rfl⟩
      simp [hz u hu]
    rw [hs, zero_div]

/-- C5 witness: on a cohort pair in which every unit has an identical
duplicate outcome partner, every conditional variance is 0 and the variance
is exactly 0 (hence non-negative). -/
theorem calculate_variance_nonneg_spec_witness :
    (0 : Rat) ≤ 0 ∧
      calculate_variance
        [({ strike_id := 1, propensities := 1/2, outcome := 3, treatment := 1 } : Row),
         { strike_id := 2, propensities := 1/2, outcome := 3, treatment := 1 }]
        [({ strike_id := 3, propensities := 2/5, outcome := 7, treatment := 0 } : Row),
         { strike_id := 4, propensities := 2/5, outcome := 7, treatment := 0 }] = some 0 :=
  ⟨calculate_variance_nonneg_spec.1
      [({ strike_id := 1, propensities := 1/2, outcome := 3, treatment := 1 } : Row),
       { strike_id := 2, propensities := 1/2, outcome := 3, treatment := 1 }]
      [({ strike_id := 3, propensities := 2/5, outcome := 7, treatment := 0 } : Row),
       { strike_id := 4, propensities := 2/5, outcome := 7, treatment := 0 }] 0 (by decide),
   calculate_variance_nonneg_spec.2
      [({ strike_id := 1, propensities := 1/2, outcome := 3, treatment := 1 } : Row),
       { strike_id := 2, propensities := 1/2, outcome := 3, treatment := 1 }]
      [({ strike_id := 3, propensities := 2/5, outcome := 7, treatment := 0 } : Row),
       { strike_id := 4, propensities := 2/5, outcome := 7, treatment := 0 }]
      [{ crow := { base := { strike_id := 1, propensities := 1/2, outcome := 3, treatment := 1 },
                   strike_id_count := 1 }, conditional_variance := 0 },
       { crow := { base := { strike_id := 2, propensities := 1/2, outcome := 3, treatment := 1 },
                   strike_id_count := 1 }, conditional_variance := 0 }]
      [{ crow := { base := { strike_id := 3, propensities := 2/5, outcome := 7, treatment := 0 },
                   strike_id_count := 1 }, conditional_variance := 0 },
       { crow := { base := { strike_id := 4, propensities := 2/5, outcome := 7, treatment := 0 },
                   strike_id_count := 1 }, conditional_variance := 0 }]
      (by decide) (by decide) (by decide)⟩

/-- For a binary treatment value the square of the code's weight
`T - ((T - 1) * -1) * K` equals the square of the spec's weight
`T + (1 - T) * K`. -/
theorem weight_sq (t k cvv : Rat) (h : t = 0 ∨ t = 1) :
    (t - ((t - 1) * (-1)) * k) * (t - ((t - 1) * (-1)) * k) * cvv
      = (t + (1 - t) * k) ^ 2 * cvv := by
  rcases h with rfl | rfl <;> ring

/-- C4: for binary treatment indicators, `calculate_variance` returns the
sum over the distinct units of the combined deduplicated sample of
`w_u² · conditional_variance(u)` with `w_u = T_u + (1 − T_u)·K_u` (treated
units weigh 1, control units weigh their reuse count), divided by the
squared number of treated units. -/
theorem calculate_variance_weight_spec (treat control : List Row)
    (tv cv : List VRow)
    (h1 : subsample_conditional_variance treat = some tv)
    (h2 : subsample_conditional_variance control = some cv)
    (hbin : ∀ u ∈ tv ++ cv,
      u.crow.base.treatment = 0 ∨ u.crow.base.treatment = 1) :
    calculate_variance treat control =
      some ((((tv ++ cv).map (fun u =>
          ((u.crow.base.treatment : Rat)
              + (1 - (u.crow.base.treatment : Rat)) * (u.crow.strike_id_count : Rat)) ^ 2
            * u.conditional_variance)).sum) / ((treat.length : Rat) ^ 2)) := by
  simp only [calculate_variance, h1, h2]
  congr 1
  rw [show ((treat.length * treat.length : Nat) : Rat) = (treat.length : Rat) ^ 2 by
    push_cast; ring]
  congr 1
  congr 1
  apply List.map_congr_left
  intro u hu
  have htr : (Cols.treatment u.crow : Rat) = 0 ∨ (Cols.treatment u.crow : Rat) = 1 := by
    have hc : Cols.treatment u.crow = u.crow.base.treatment := rfl
    rcases hbin u hu with h | h
    · left; rw [hc, h]; norm_num
    · right; rw [hc, h]; norm_num
  have hc : Cols.treatment u.crow = u.crow.base.treatment := rfl
  rw [← hc]
  exact weight_sq _ _ _ htr

/-- C4 witness: three treated units and a matched-control frame reusing
control id 4 twice; the weighted sum is `3·(1²·½) + (−2)²·½ + 1²·½ = 4`,
giving variance `4/9`. -/
theorem calculate_variance_weight_spec_witness :
    calculate_variance
        [({ strike_id := 1, propensities := 1/2, outcome := 10, treatment := 1 } : Row),
         { strike_id := 2, propensities := 3/5, outcome := 8, treatment := 1 },
         { strike_id := 3, propensities := 11/20, outcome := 9, treatment := 1 }]
        [({ strike_id := 4, propensities := 12/25, outcome := 4, treatment := 0 } : Row),
         { strike_id := 5, propensities := 3/5, outcome := 5, treatment := 0 },
         { strike_id := 4, propensities := 12/25, outcome := 4, treatment := 0 }] =
      some (4/9) := by
  rw [calculate_variance_weight_spec
    [({ strike_id := 1, propensities := 1/2, outcome := 10, treatment := 1 } : Row),
     { strike_id := 2, propensities := 3/5, outcome := 8, treatment := 1 },
     { strike_id := 3, propensities := 11/20, outcome := 9, treatment := 1 }]
    [({ strike_id := 4, propensities := 12/25, outcome := 4, treatment := 0 } : Row),
     { strike_id := 5, propensities := 3/5, outcome := 5, treatment := 0 },
     { strike_id := 4, propensities := 12/25, outcome := 4, treatment := 0 }]
    [{ crow := { base := { strike_id := 1, propensities := 1/2, outcome := 10, treatment := 1 },
                 strike_id_count := 1 }, conditional_variance := 1/2 },
     { crow := { base := { strike_id := 2, propensities := 3/5, outcome := 8, treatment := 1 },
                 strike_id_count := 1 }, conditional_variance := 1/2 },
     { crow := { base := { strike_id := 3, propensities := 11/20, outcome := 9, treatment := 1 },
                 strike_id_count := 1 }, conditional_variance := 1/2 }]
    [{ crow := { base := { strike_id := 4, propensities := 12/25, outcome := 4, treatment := 0 },
                 strike_id_count := 2 }, conditional_variance := 1/2 },
     { crow := { base := { strike_id := 5, propensities := 3/5, outcome := 5, treatment := 0 },
                 strike_id_count := 1 }, conditional_variance := 1/2 }]
    (by decide) (by decide) (by decide)]
  decide

theorem uniqueFirstAux_of_nodup {α : Type} [DecidableEq α] :
    ∀ (l seen : List α), (∀ a ∈ l, a ∉ seen) → l.Nodup →
      uniqueFirstAux seen l = l := by
  intro l
  induction l with
  | nil => intro seen _ _; rfl
  | cons x xs ih =>
    intro seen hd hn
    rw [uniqueFirstAux, if_neg (hd x (by simp))]
    congr 1
    apply ih
    · intro a ha
      simp only [List.mem_cons, not_or]
      exact ⟨fun hax => (List.nodup_cons.1 hn).1 (hax ▸ ha), hd a (by simp [ha])⟩
    · exact (List.nodup_cons.1 hn).2

theorem uniqueFirst_of_nodup {α : Type} [DecidableEq α] {l : List α}
    (h : l.Nodup) : uniqueFirst l = l :=
  uniqueFirstAux_of_nodup l [] (by simp) h

/-- On a frame whose `strike_id` column has no duplicates (every unit a
distinct id), `subsample_count_matches` attaches a count of 1 to every row
and deduplication is the identity. -/
theorem scm_of_nodup {data : List Row}
    (hnd : (data.map (fun r => r.strike_id)).Nodup) :
    subsample_count_matches data =
      data.map (fun r => ({ base := r, strike_id_count := 1 } : CRow)) := by
  have hcount : ∀ r ∈ data,
      data.countP (fun s => s.strike_id = r.strike_id) = 1 := by
    intro r hr
    have h1 : (data.map (fun s => s.strike_id)).count r.strike_id = 1 :=
      List.count_eq_one_of_mem hnd (List.mem_map_of_mem _ hr)
    rw [List.count_eq_countP, List.countP_map] at h1
    rw [← h1]
    apply List.countP_congr
    intro s _
    simp [Function.comp, beq_iff_eq]
  have hmapeq : data.map
        (fun r => (⟨r, data.countP (fun s => s.strike_id = r.strike_id)⟩ : CRow))
      = data.map (fun r => ({ base := r, strike_id_count := 1 } : CRow)) := by
    apply List.map_congr_left
    intro r hr
    rw [hcount r hr]
  unfold subsample_count_matches
  rw [hmapeq]
  apply uniqueFirst_of_nodup
  apply List.Nodup.map
  · intro a b hab
    cases hab
    rfl
  · exact hnd.of_map _

/-- In a frame with pairwise-distinct ids and at least two rows, every row
has another row with a different id. -/
theorem exists_other_id {data : List Row}
    (hnd : (data.map (fun r => r.strike_id)).Nodup) (h2 : 2 ≤ data.length) :
    ∀ q ∈ data, ∃ c ∈ data, c.strike_id ≠ q.strike_id := by
  match data, h2 with
  | a :: b :: rest, _ =>
    intro q hq
    have hab : a.strike_id ≠ b.strike_id := by
      simp only [List.map_cons, List.nodup_cons, List.mem_cons, List.mem_map,
        not_or] at hnd
      exact fun h => hnd.1.1 h
    by_cases hqa : q.strike_id = a.strike_id
    · exact ⟨b, by simp, fun h => hab (by rw [h, hqa])⟩
    · exact ⟨a, by simp, fun h => hqa (h.symm)⟩

/-- The conditional-variance formula written with squared deviations from
the two-point mean. -/
theorem condVar_sq (a b : Rat) :
    condVar a b = (a - (a + b) / 2) ^ 2 + (b - (a + b) / 2) ^ 2 := by
  unfold condVar
  ring

/-- C6: on a cohort of at least two distinct units,
`subsample_conditional_variance` succeeds, and attaches to every unit u the
conditional variance `(y_u − ȳ)² + (y_match − ȳ)²`, where `y_match` is the
outcome of u's nearest neighbor under a self-match of the counted cohort
against itself (self-exclusion by id) and `ȳ = (y_u + y_match)/2`. -/
theorem subsample_conditional_variance_spec (data : List Row)
    (hnd : (data.map (fun r => r.strike_id)).Nodup) (h2 : 2 ≤ data.length) :
    ∃ out, subsample_conditional_variance data = some out ∧
      out.length = data.length ∧
      ∀ i (ho : i < out.length) (hd : i < data.length),
        ∃ m, find_nn (subsample_count_matches data)
            (data.get ⟨i, hd⟩).propensities (data.get ⟨i, hd⟩).strike_id = some m ∧
          out.get ⟨i, ho⟩ =
            { crow := { base := data.get ⟨i, hd⟩, strike_id_count := 1 },
              conditional_variance :=
                ((data.get ⟨i, hd⟩).outcome
                    - ((data.get ⟨i, hd⟩).outcome + m.base.outcome) / 2) ^ 2
                  + (m.base.outcome
                    - ((data.get ⟨i, hd⟩).outcome + m.base.outcome) / 2) ^ 2 } := by
  have hscm := scm_of_nodup hnd
  have hex := exists_other_id hnd h2
  have htot : ∀ q ∈ data.map (fun r => ({ base := r, strike_id_count := 1 } : CRow)),
      ∃ r, find_nn (data.map (fun r => ({ base := r, strike_id_count := 1 } : CRow)))
        (Cols.propensities q) (Cols.strike_id q) = some r := by
    intro q hq
    apply find_nn_isSome
    rcases List.mem_map.1 hq with ⟨qr, hqr, rfl⟩
    rcases hex qr hqr with ⟨c, hc, hne⟩
    exact ⟨{ base := c, strike_id_count := 1 }, List.mem_map_of_mem _ hc, hne⟩
  rcases nn_match_loop_total [] htot with ⟨sm, tfin, hloop⟩
  rcases nn_match_loop_spec hloop with ⟨htf, ms, hres, hlen, hget⟩
  simp only [List.nil_append] at hres
  subst hres
  have hnn : nn_match (data.map (fun r => ({ base := r, strike_id_count := 1 } : CRow)))
      (data.map (fun r => ({ base := r, strike_id_count := 1 } : CRow)))
      = some (sm, tfin) := hloop
  have hsmlen : sm.length = data.length := by
    rw [hlen, List.length_map]
  refine ⟨List.zipWith
      (fun r m => (⟨r, condVar (Cols.outcome r) (Cols.outcome m)⟩ : VRow))
      (data.map (fun r => ({ base := r, strike_id_count := 1 } : CRow))) sm,
    ?_, ?_, ?_⟩
  · simp only [subsample_conditional_variance, hscm, hnn]
  · rw [List.length_zipWith, List.length_map, hsmlen, Nat.min_self]
  · intro i ho hd
    have hdm : i < (data.map (fun r => ({ base := r, strike_id_count := 1 } : CRow))).length := by
      rw [List.length_map]; exact hd
    have hsm : i < sm.length := by rw [hsmlen]; exact hd
    refine ⟨sm.get ⟨i, hsm⟩, ?_, ?_⟩
    · have hq := hget i hdm hsm
      have hqget : (data.map (fun r => ({ base := r, strike_id_count := 1 } : CRow))).get ⟨i, hdm⟩
          = { base := data.get ⟨i, hd⟩, strike_id_count := 1 } := by
        rw [List.get_map]
      rw [hqget] at hq
      rw [← hscm] at hq
      exact hq
    · rw [List.get_zipWith]
      congr 1
      · rw [List.get_map]
      · rw [List.get_map]
        rw [condVar_sq]
        rfl

/-- C6 witness: the conditional-variance characterisation applied at a
two-unit cohort with distinct ids. -/
theorem subsample_conditional_variance_spec_witness :
    ∃ out, subsample_conditional_variance
        [({ strike_id := 1, propensities := 1/2, outcome := 3, treatment := 1 } : Row),
         { strike_id := 2, propensities := 3/5, outcome := 5, treatment := 1 }] = some out ∧
      out.length =
        ([({ strike_id := 1, propensities := 1/2, outcome := 3, treatment := 1 } : Row),
          { strike_id := 2, propensities := 3/5, outcome := 5, treatment := 1 }]).length ∧
      ∀ i (ho : i < out.length)
        (hd : i < ([({ strike_id := 1, propensities := 1/2, outcome := 3, treatment := 1 } : Row),
          { strike_id := 2, propensities := 3/5, outcome := 5, treatment := 1 }]).length),
        ∃ m, find_nn (subsample_count_matches
            [({ strike_id := 1, propensities := 1/2, outcome := 3, treatment := 1 } : Row),
             { strike_id := 2, propensities := 3/5, outcome := 5, treatment := 1 }])
            (([({ strike_id := 1, propensities := 1/2, outcome := 3, treatment := 1 } : Row),
               { strike_id := 2, propensities := 3/5, outcome := 5, treatment := 1 }]).get
              ⟨i, hd⟩).propensities
            (([({ strike_id := 1, propensities := 1/2, outcome := 3, treatment := 1 } : Row),
               { strike_id := 2, propensities := 3/5, outcome := 5, treatment := 1 }]).get
              ⟨i, hd⟩).strike_id = some m ∧
          out.get ⟨i, ho⟩ =
            (⟨⟨([({ strike_id := 1, propensities := 1/2, outcome := 3, treatment := 1 } : Row),
                  { strike_id := 2, propensities := 3/5, outcome := 5, treatment := 1 }]).get
                  ⟨i, hd⟩, 1⟩,
                ((([({ strike_id := 1, propensities := 1/2, outcome := 3, treatment := 1 } : Row),
                    { strike_id := 2, propensities := 3/5, outcome := 5, treatment := 1 }]).get
                    ⟨i, hd⟩).outcome
                    - ((([({ strike_id := 1, propensities := 1/2, outcome := 3, treatment := 1 } : Row),
                        { strike_id := 2, propensities := 3/5, outcome := 5, treatment := 1 }]).get
                        ⟨i, hd⟩).outcome + m.base.outcome) / 2) ^ 2
                  + (m.base.outcome
                    - ((([({ strike_id := 1, propensities := 1/2, outcome := 3, treatment := 1 } : Row),
                        { strike_id := 2, propensities := 3/5, outcome := 5, treatment := 1 }]).get
                        ⟨i, hd⟩).outcome + m.base.outcome) / 2) ^ 2⟩ : VRow) :=
  subsample_conditional_variance_spec
    [({ strike_id := 1, propensities := 1/2, outcome := 3, treatment := 1 } : Row),
     { strike_id := 2, propensities := 3/5, outcome := 5, treatment := 1 }]
    (by decide) (by decide)

theorem zipWith_snd {α β : Type} :
    ∀ (l1 : List α) (l2 : List β), l1.length = l2.length →
      List.zipWith (fun _ b => b) l1 l2 = l2 := by
  intro l1
  induction l1 with
  | nil =>
    intro l2 h
    cases l2 with
    | nil => rfl
    | cons b bs => simp at h
  | cons a as ih =>
    intro l2 h
    cases l2 with
    | nil => simp at h
    | cons b bs =>
      simp only [List.zipWith_cons_cons]
      congr 1
      exact ih bs (by simpa using h)

/-- C9: `estimate_propensities` assigns `strike_id` as the dense sequence
1..N over the input row order, and when the treatment column is binary,
`treat_control_split` partitions the N rows: the cohort sizes add to N and
each id 1..N occurs exactly once across the two cohorts. -/
theorem estimate_propensities_ids_partition (data : List PreRow) (props : List Rat)
    (out : List Row) (h : estimate_propensities data props = some out) :
    out.map (fun r => r.strike_id)
        = (List.range data.length).map (fun i : Nat => (i : Int) + 1) ∧
      ((∀ r ∈ out, r.treatment = 0 ∨ r.treatment = 1) →
        (treat_control_split out).1.length + (treat_control_split out).2.length
            = data.length ∧
          ∀ k : Int, 1 ≤ k → k ≤ (data.length : Int) →
            (((treat_control_split out).1 ++ (treat_control_split out).2).map
              (fun r => r.strike_id)).count k = 1) := by
  simp only [estimate_propensities] at h
  split at h
  case isFalse => exact absurd h (by simp)
  case isTrue hplen =>
  simp only [Option.some.injEq] at h
  subst h
  have hpairlen : (List.zipWith (fun r p => (r, p)) data props).length = data.length := by
    rw [List.length_zipWith, hplen, Nat.min_self]
  have hidxlen : ((List.range data.length).map (fun i : Nat => (i : Int) + 1)).length
      = data.length := by
    rw [List.length_map, List.length_range]
  have hids : (List.zipWith
      (fun (rp : PreRow × Rat) (id : Int) =>
        ({ strike_id := id, propensities := rp.2,
           outcome := rp.1.outcome, treatment := rp.1.treatment } : Row))
      (List.zipWith (fun r p => (r, p)) data props)
      ((List.range data.length).map (fun i : Nat => (i : Int) + 1))).map
        (fun r => r.strike_id)
      = (List.range data.length).map (fun i : Nat => (i : Int) + 1) := by
    rw [List.map_zipWith]
    exact zipWith_snd _ _ (by rw [hpairlen, hidxlen])
  refine ⟨hids, ?_⟩
  intro hbin
  set out := List.zipWith
      (fun (rp : PreRow × Rat) (id : Int) =>
        ({ strike_id := id, propensities := rp.2,
           outcome := rp.1.outcome, treatment := rp.1.treatment } : Row))
      (List.zipWith (fun r p => (r, p)) data props)
      ((List.range data.length).map (fun i : Nat => (i : Int) + 1)) with hout
  have houtlen : out.length = data.length := by
    rw [hout, List.length_zipWith, hpairlen, hidxlen, Nat.min_self]
  have hc : out.filter (fun r => r.treatment = 0)
      = out.filter (fun r => !(decide (r.treatment = 1))) := by
    apply List.filter_congr
    intro r hr
    rcases hbin r hr with h | h <;> simp [h]
  have hperm : List.Perm ((treat_control_split out).1 ++ (treat_control_split out).2) out := by
    simp only [treat_control_split]
    rw [hc]
    exact List.filter_append_perm _ out
  constructor
  · have := hperm.length_eq
    rw [List.length_append] at this
    rw [this, houtlen]
  · intro k hk1 hk2
    rw [(hperm.map (fun r => r.strike_id)).count_eq, hids]
    have hnodup : ((List.range data.length).map (fun i : Nat => (i : Int) + 1)).Nodup := by
      apply List.Nodup.map
      · intro a b hab
        simpa using hab
      · exact List.nodup_range _
    have hmem : k ∈ (List.range data.length).map (fun i : Nat => (i : Int) + 1) := by
      rw [List.mem_map]
      refine ⟨(k - 1).toNat, List.mem_range.2 (by omega), by omega⟩
    exact List.count_eq_one_of_mem hnodup hmem

/-- C9 witness: three input rows with a binary treatment column get ids
1, 2, 3 and are partitioned into cohorts of sizes 1 and 2. -/
theorem estimate_propensities_ids_partition_witness :
    ([({ strike_id := 1, propensities := 1/2, outcome := 10, treatment := 1 } : Row),
      { strike_id := 2, propensities := 2/5, outcome := 4, treatment := 0 },
      { strike_id := 3, propensities := 13/25, outcome := 6, treatment := 0 }].map
        (fun r => r.strike_id)
      = (List.range ([({ outcome := 10, treatment := 1 } : PreRow),
          { outcome := 4, treatment := 0 },
          { outcome := 6, treatment := 0 }]).length).map (fun i : Nat => (i : Int) + 1)) ∧
      ((∀ r ∈ [({ strike_id := 1, propensities := 1/2, outcome := 10, treatment := 1 } : Row),
          { strike_id := 2, propensities := 2/5, outcome := 4, treatment := 0 },
          { strike_id := 3, propensities := 13/25, outcome := 6, treatment := 0 }],
          r.treatment = 0 ∨ r.treatment = 1) →
        (treat_control_split
            [({ strike_id := 1, propensities := 1/2, outcome := 10, treatment := 1 } : Row),
             { strike_id := 2, propensities := 2/5, outcome := 4, treatment := 0 },
             { strike_id := 3, propensities := 13/25, outcome := 6, treatment := 0 }]).1.length
            + (treat_control_split
            [({ strike_id := 1, propensities := 1/2, outcome := 10, treatment := 1 } : Row),
             { strike_id := 2, propensities := 2/5, outcome := 4, treatment := 0 },
             { strike_id := 3, propensities := 13/25, outcome := 6, treatment := 0 }]).2.length
            = ([({ outcome := 10, treatment := 1 } : PreRow),
               { outcome := 4, treatment := 0 },
               { outcome := 6, treatment := 0 }]).length ∧
          ∀ k : Int, 1 ≤ k →
            k ≤ (([({ outcome := 10, treatment := 1 } : PreRow),
               { outcome := 4, treatment := 0 },
               { outcome := 6, treatment := 0 }]).length : Int) →
            (((treat_control_split
                [({ strike_id := 1, propensities := 1/2, outcome := 10, treatment := 1 } : Row),
                 { strike_id := 2, propensities := 2/5, outcome := 4, treatment := 0 },
                 { strike_id := 3, propensities := 13/25, outcome := 6, treatment := 0 }]).1
              ++ (treat_control_split
                [({ strike_id := 1, propensities := 1/2, outcome := 10, treatment := 1 } : Row),
                 { strike_id := 2, propensities := 2/5, outcome := 4, treatment := 0 },
                 { strike_id := 3, propensities := 13/25, outcome := 6, treatment := 0 }]).2).map
              (fun r => r.strike_id)).count k = 1) :=
  estimate_propensities_ids_partition
    [({ outcome := 10, treatment := 1 } : PreRow),
     { outcome := 4, treatment := 0 },
     { outcome := 6, treatment := 0 }]
    [1/2, 2/5, 13/25]
    [({ strike_id := 1, propensities := 1/2, outcome := 10, treatment := 1 } : Row),
     { strike_id := 2, propensities := 2/5, outcome := 4, treatment := 0 },
     { strike_id := 3, propensities := 13/25, outcome := 6, treatment := 0 }]
    (by decide)

end Strike
